import Mathlib

/-!
Shallow embedding of the search-result aggregation pipeline of
`src/tools.py` (Deep-Research-Local-Agent): `strip_thinking_tokens`,
`deduplicate_and_format_sources`, the two search providers
`duckduckgo_search` / `searxng_search`, and `save_report_as_html`.

Python strings are modelled as `List Char` (so `len` is `List.length`,
slicing is `take`/`drop`, `+` is `++`, `in` is substring search).
A dict field is a `PyField`: the key may be absent, hold the value
`None`, or hold a string.  External effects (network calls, the file
system) are passed in as explicit outcome arguments, so that the
try/except structure of the code is represented by `Except`.
-/

/-- A Python string, modelled as its list of characters. -/
abbrev PyStr := List Char

instance {ε α : Type _} [DecidableEq ε] [DecidableEq α] : DecidableEq (Except ε α) := fun a b =>
  match a, b with
  | .ok a, .ok b => decidable_of_iff (a = b) (by simp)
  | .error e, .error f => decidable_of_iff (e = f) (by simp)
  | .ok _, .error _ => isFalse (by simp)
  | .error _, .ok _ => isFalse (by simp)

/-- The whitespace characters removed by Python's `str.strip()`. -/
def pySpace (c : Char) : Bool :=
  c = ' ' || c = '\t' || c = '\n' || c = '\r' || c = Char.ofNat 11 || c = Char.ofNat 12

/-- Python `str.strip()`: drop leading and trailing whitespace. -/
def pyStrip (s : PyStr) : PyStr :=
  ((s.dropWhile pySpace).reverse.dropWhile pySpace).reverse

/-- A value stored under a dict key: the key may be absent, map to
`None`, or map to a string. -/
inductive PyField where
  | absent
  | pynone
  | str (s : PyStr)
deriving DecidableEq, Repr, Inhabited

/-- `d.get(k, default)` rendered inside an f-string: an absent key gives
the default, the value `None` prints as `None`, a string prints itself. -/
def PyField.fmtGet (f : PyField) (d : PyStr) : PyStr :=
  match f with
  | .absent => d
  | .pynone => "None".toList
  | .str s => s

/-- `d.get(k)` rendered inside an f-string (default `None`). -/
def PyField.fmtGet0 (f : PyField) : PyStr :=
  match f with
  | .absent => "None".toList
  | .pynone => "None".toList
  | .str s => s

/-- `d.get(k)` as a value: an absent key yields the value `None`. -/
def PyField.got (f : PyField) : PyField :=
  match f with
  | .absent => .pynone
  | x => x

/-- `d.get(k, d0)` as a value: an absent key yields the string `d0`. -/
def PyField.gotD (f : PyField) (d0 : PyStr) : PyField :=
  match f with
  | .absent => .str d0
  | x => x

/-- `d.get('raw_content', '') or ''`: any falsy value (absent key,
`None`, empty string) collapses to the empty string. -/
def PyField.rawOrEmpty : PyField → PyStr
  | .str s => s
  | _ => []

/-- Truthiness of `d.get('url')`: `some s` iff the field holds a
non-empty string `s` (`None`, absence and `""` are falsy). -/
def PyField.truthyStr? : PyField → Option PyStr
  | .str s => if s = [] then none else some s
  | _ => none

/-- One normalized search record: a dict with the four canonical keys. -/
structure SearchRecord where
  title : PyField
  url : PyField
  content : PyField
  raw_content : PyField
deriving DecidableEq, Repr, Inhabited

/-- An element of `sources_list`: either a record dict, or a bare string
(such as a dict key spliced in by `list.extend` over a dict). -/
inductive SourceItem where
  | record (r : SearchRecord)
  | strItem (s : PyStr)
deriving DecidableEq, Repr, Inhabited

/-- An element of a list passed as `search_response`: a dict that has a
`results` key, a dict without one (iterating it yields its keys), or a
plain list of items. -/
inductive ResponseItem where
  | dictWith (results : List SourceItem)
  | dictWithout (keys : List PyStr)
  | listItems (items : List SourceItem)
deriving DecidableEq, Repr

/-- The `search_response` argument: a dict (with `some` results list if
it has a `results` key), a list, or any other Python value. -/
inductive SearchResponse where
  | dict (results? : Option (List SourceItem))
  | listResp (items : List ResponseItem)
  | other
deriving DecidableEq, Repr

/-- The exceptions the embedded code can raise. -/
inductive PyError where
  | valueError (msg : PyStr)
  | attributeError
deriving DecidableEq, Repr

/-- `sources_list.extend(response)` applied to every element of a list
input: a dict with `results` contributes its `results` list, a dict
without one contributes its keys as bare strings, a list contributes
its elements. -/
def extendAll : List ResponseItem → List SourceItem
  | [] => []
  | .dictWith rs :: rest => rs ++ extendAll rest
  | .dictWithout keys :: rest => keys.map .strItem ++ extendAll rest
  | .listItems its :: rest => its ++ extendAll rest

/-- Lines 41–51 of `tools.py`: build `sources_list` from the input, or
raise `ValueError` when the input is neither a dict nor a list. -/
def sourcesListOf : SearchResponse → Except PyError (List SourceItem)
  | .dict results? => .ok (results?.getD [])
  | .listResp items => .ok (extendAll items)
  | .other => .error (.valueError
      "Input must be either a dict with \x27results\x27 or a list of search results".toList)

/-- Lines 53–56 of `tools.py`: the `unique_sources` dict, modelled as an
insertion-ordered association list.  `source.get('url')` on a bare
string raises `AttributeError`; a record is inserted iff its url is
truthy and not yet a key. -/
def dedupLoop (acc : List (PyStr × SearchRecord)) :
    List SourceItem → Except PyError (List (PyStr × SearchRecord))
  | [] => .ok acc
  | .strItem _ :: _ => .error .attributeError
  | .record r :: rest =>
    match r.url.truthyStr? with
    | some u =>
      if u ∈ acc.map Prod.fst then dedupLoop acc rest
      else dedupLoop (acc ++ [(u, r)]) rest
    | none => dedupLoop acc rest

/-- `dedupLoop` restricted to a list of records (where it cannot raise). -/
def dedupEntries (acc : List (PyStr × SearchRecord)) :
    List SearchRecord → List (PyStr × SearchRecord)
  | [] => acc
  | r :: rest =>
    match r.url.truthyStr? with
    | some u =>
      if u ∈ acc.map Prod.fst then dedupEntries acc rest
      else dedupEntries (acc ++ [(u, r)]) rest
    | none => dedupEntries acc rest

/-- The deduplicated records, in insertion order (`unique_sources.values()`). -/
def dedupRecords (rs : List SearchRecord) : List SearchRecord :=
  (dedupEntries [] rs).map Prod.snd

/-- The truncation marker appended to cut raw content. -/
def truncMarker : PyStr := "... [truncated]".toList

/-- Lines 64–67 of `tools.py`: raw content bounded to
`max_tokens_per_source * 4` characters, with the marker appended when cut. -/
def limitedRaw (maxTok : Nat) (rc : PyField) : PyStr :=
  let raw := rc.rawOrEmpty
  if raw.length > maxTok * 4 then raw.take (maxTok * 4) ++ truncMarker else raw

/-- Lines 60–68 of `tools.py`: the stanza appended for one record. -/
def formatStanza (maxTok : Nat) (fetchFullPage : Bool) (r : SearchRecord) : PyStr :=
  "Source: ".toList ++ r.title.fmtGet "No Title".toList ++ "\n===\n".toList
  ++ "URL: ".toList ++ r.url.fmtGet0 ++ "\n===\n".toList
  ++ "Most relevant content from source: ".toList ++ r.content.fmtGet [] ++ "\n===\n".toList
  ++ (if fetchFullPage then
        "Full source content limited to ".toList ++ (toString maxTok).toList
        ++ " tokens: ".toList ++ limitedRaw maxTok r.raw_content ++ "\n\n".toList
      else [])

/-- Lines 58–70 of `tools.py`: header, one stanza per deduplicated
record, final `.strip()`. -/
def renderSources (maxTok : Nat) (fetchFullPage : Bool) (rs : List SearchRecord) : PyStr :=
  pyStrip ("Sources:\n\n".toList ++ (rs.map (formatStanza maxTok fetchFullPage)).flatten)

/-- Lines 53–70 of `tools.py`: deduplicate a built `sources_list` and
render it; an exception in the dedup loop propagates. -/
def formatFromSourcesList (sl : List SourceItem) (maxTok : Nat)
    (fetchFullPage : Bool) : Except PyError PyStr :=
  match dedupLoop [] sl with
  | .error e => .error e
  | .ok us => .ok (renderSources maxTok fetchFullPage (us.map Prod.snd))

/-- `deduplicate_and_format_sources` (lines 33–70 of `tools.py`); an
exception at either stage propagates. -/
def deduplicate_and_format_sources (resp : SearchResponse) (maxTok : Nat)
    (fetchFullPage : Bool) : Except PyError PyStr :=
  match sourcesListOf resp with
  | .error e => .error e
  | .ok sl => formatFromSourcesList sl maxTok fetchFullPage

/-! ### `strip_thinking_tokens` (lines 23–31 of `tools.py`) -/

/-- Does `pat` occur at the start of `text`? -/
def startsWithL (pat text : List Char) : Bool :=
  match pat, text with
  | [], _ => true
  | _ :: _, [] => false
  | p :: ps, t :: ts => p == t && startsWithL ps ts

/-- Python `text.find(pat)`: index of the leftmost occurrence of `pat`. -/
def findSub (pat : List Char) : List Char → Option Nat
  | [] => if startsWithL pat [] then some 0 else none
  | c :: ts =>
    if startsWithL pat (c :: ts) then some 0 else (findSub pat ts).map (· + 1)

/-- Python `pat in text`. -/
def containsSub (pat text : List Char) : Bool := (findSub pat text).isSome

/-- The opening reasoning marker. -/
def thinkOpenTag : PyStr := "<think>".toList

/-- The closing reasoning marker. -/
def thinkCloseTag : PyStr := "</think>".toList

/-- The `while` condition: both markers occur in the text. -/
def stripCond (text : PyStr) : Bool :=
  containsSub thinkOpenTag text && containsSub thinkCloseTag text

/-- The loop body: `text = text[:start] + text[end:]` where `start` is
the first occurrence of the opening marker and `end` is the index just
after the first occurrence of the closing marker.  (Only evaluated when
`stripCond` holds, so both `findSub` calls succeed and the `getD 0`
defaults are never used.) -/
def stripStep (text : PyStr) : PyStr :=
  let start := (findSub thinkOpenTag text).getD 0
  let stop := (findSub thinkCloseTag text).getD 0 + thinkCloseTag.length
  text.take start ++ text.drop stop

/-- The `while` loop of `strip_thinking_tokens`, with explicit fuel:
`none` means the loop is still running after `fuel` iterations, so the
function terminates on `text` iff some fuel yields `some`. -/
def strip_thinking_tokens : Nat → PyStr → Option PyStr
  | 0, _ => none
  | fuel + 1, text =>
    if stripCond text then strip_thinking_tokens fuel (stripStep text)
    else some text

/-! ### Search providers (lines 83–137 of `tools.py`)

The network collaborators are passed in as outcome arguments: the result
of `DDGS().text(...)` / `SearxSearchWrapper(...).results(...)` is an
`Except` carrying either the hit list or the message of the exception the
call raised, and the outcome of `markdownify(httpx.get(url).text)` inside
`fetch_raw_content` is an `Except` indexed by the url value. -/

/-- A raw DuckDuckGo hit: a dict with keys `title`, `href`, `body`. -/
structure DDGHit where
  title : PyField
  href : PyField
  body : PyField
deriving DecidableEq, Repr

/-- A raw SearXNG hit: a dict with keys `title`, `link`, `snippet`. -/
structure SearxHit where
  title : PyField
  link : PyField
  snippet : PyField
deriving DecidableEq, Repr

/-- `fetch_raw_content` (lines 83–94): its own try/except converts any
fetch failure into `None`, so it never raises. -/
def fetch_raw_content (webGet : Except PyStr PyStr) : Option PyStr :=
  match webGet with
  | .ok body => some body
  | .error _ => none

/-- The `raw_content` value of one provider hit: the snippet field
(with default `''`) unless a full-page fetch is requested, in which
case the fetch result (`None` on failure). -/
def hitRawContent (fetchFullPage : Bool) (snippetField urlField : PyField)
    (webGet : PyField → Except PyStr PyStr) : PyField :=
  if fetchFullPage then
    match fetch_raw_content (webGet urlField.got) with
    | none => .pynone
    | some s => .str s
  else snippetField.gotD []

/-- `duckduckgo_search` (lines 97–117): the whole body is wrapped in
`try/except`, so a collaborator failure degrades to `{"results": []}`
plus a printed diagnostic (returned as the list of printed lines). -/
def duckduckgo_search (ddgs : Except PyStr (List DDGHit))
    (webGet : PyField → Except PyStr PyStr) (fetchFullPage : Bool) :
    Except PyStr (SearchResponse × List PyStr) :=
  let body : Except PyStr SearchResponse :=
    match ddgs with
    | .error e => .error e
    | .ok hits => .ok (.dict (some (hits.map fun r =>
        .record { title := r.title.got, url := r.href.got,
                  content := r.body.got,
                  raw_content := hitRawContent fetchFullPage r.body r.href webGet })))
  match body with
  | .error e => .ok (.dict (some []), ["Error in DuckDuckGo search: ".toList ++ e])
  | .ok resp => .ok (resp, [])

/-- `searxng_search` (lines 120–137): the host comes from the
`SEARXNG_URL` environment variable with a fixed fallback; there is no
`try/except`, so a collaborator failure propagates to the caller. -/
def searxng_search (envSearxngUrl : Option PyStr)
    (searxResults : PyStr → Except PyStr (List SearxHit))
    (webGet : PyField → Except PyStr PyStr) (fetchFullPage : Bool) :
    Except PyStr (SearchResponse × List PyStr) :=
  let host := envSearxngUrl.getD "http://localhost:8888".toList
  match searxResults host with
  | .error e => .error e
  | .ok hits => .ok (.dict (some (hits.map fun r =>
      .record { title := r.title.got, url := r.link.got,
                content := r.snippet.got,
                raw_content := hitRawContent fetchFullPage r.snippet r.link webGet })), [])

/-! ### `save_report_as_html` (lines 194–211 of `tools.py`) -/

/-- `f"{title.replace(' ', '_').lower()}_report.html"`. -/
def reportFilename (title : PyStr) : PyStr :=
  (title.map fun c => if c = ' ' then '_' else c).map Char.toLower
    ++ "_report.html".toList

/-- The observable outcome of `save_report_as_html`: the file path it
opens, the content it writes there, and the returned status string. -/
structure SaveOutcome where
  path : PyStr
  written : PyStr
  status : PyStr
deriving DecidableEq, Repr

/-- `save_report_as_html`: writes `content` to the bare filename derived
from `title` (no directory component), and converts any write failure
(`writeOutcome = some e`) into a failure status string instead of
raising. -/
def save_report_as_html (title content : PyStr) (writeOutcome : Option PyStr) :
    SaveOutcome :=
  let filename := reportFilename title
  match writeOutcome with
  | none =>
    { path := filename, written := content,
      status := "Successfully saved report to \x27".toList ++ filename ++ "\x27".toList }
  | some e =>
    { path := filename, written := content,
      status := "Failed to save report. Error: ".toList ++ e }

/-! ## Theorems -/

/-- An input on which the `while` loop of `strip_thinking_tokens` spins
forever: the first closing marker precedes the first opening marker, so
the spliced text equals the original text. -/
def thinkBadInput : PyStr := "</think><think></think>".toList

/-- Claim C7: the claim says `strip_thinking_tokens` terminates for
every input string.  The code does stop and leave the text untouched
when a marker is missing, but on `"</think><think></think>"` the loop
body returns the text unchanged while both markers remain present, so
the `while` loop never exits: the loop condition holds, the body is the
identity on this input, and no amount of fuel makes the loop finish. -/
theorem C7_strip_thinking_tokens_diverges :
    stripCond thinkBadInput = true ∧ stripStep thinkBadInput = thinkBadInput
    ∧ ∀ fuel, strip_thinking_tokens fuel thinkBadInput = none := by
  refine ⟨by decide, by decide, ?_⟩
  intro fuel
  induction fuel with
  | zero => rfl
  | succ n ih =>
    have hc : stripCond thinkBadInput = true := by decide
    have hs : stripStep thinkBadInput = thinkBadInput := by decide
    simp [strip_thinking_tokens, hc, hs, ih]

/-- When the loop returns, neither marker pair is left: the result fails
the loop condition. -/
theorem strip_result_stripCond_false : ∀ (fuel : Nat) (t out : PyStr),
    strip_thinking_tokens fuel t = some out → stripCond out = false := by
  intro fuel
  induction fuel with
  | zero => intro t out h; simp [strip_thinking_tokens] at h
  | succ n ih =>
    intro t out h
    by_cases hc : stripCond t
    · exact ih _ _ (by simpa [strip_thinking_tokens, hc] using h)
    · have ht : t = out := by simpa [strip_thinking_tokens, hc] using h
      subst ht
      simpa using hc

/-- Claim C9: `strip_thinking_tokens` is idempotent — whenever the loop
terminates with some output, running it again on that output returns it
unchanged (the output never contains both markers, so the loop body is
never re-entered). -/
theorem C9_strip_thinking_tokens_idempotent (fuel : Nat) (t out : PyStr)
    (h : strip_thinking_tokens fuel t = some out) :
    strip_thinking_tokens fuel out = some out := by
  have hc := strip_result_stripCond_false fuel t out h
  cases fuel with
  | zero => simp [strip_thinking_tokens] at h
  | succ n => simp [strip_thinking_tokens, hc]

/-- Witness for C9 at a concrete input. -/
theorem C9_strip_thinking_tokens_idempotent_witness :
    strip_thinking_tokens 2 "a<think>b</think>c".toList = some "ac".toList
    ∧ strip_thinking_tokens 2 "ac".toList = some "ac".toList :=
  ⟨by decide,
   C9_strip_thinking_tokens_idempotent 2 "a<think>b</think>c".toList "ac".toList (by decide)⟩

/-- Claim C5: with `fetch_full_page` set, each stanza embeds
`limitedRaw`; raw content longer than `max_tokens_per_source * 4`
characters is cut to exactly that many characters with the truncation
marker appended (so it ends with the marker and has length
`max_tokens_per_source * 4` plus the marker length), and raw content
within the limit is included uncut with nothing appended. -/
theorem C5_truncation (mt : Nat) (r : SearchRecord) :
    (∃ pre, formatStanza mt true r
        = pre ++ limitedRaw mt r.raw_content ++ "\n\n".toList)
    ∧ (r.raw_content.rawOrEmpty.length > mt * 4 →
        limitedRaw mt r.raw_content
            = r.raw_content.rawOrEmpty.take (mt * 4) ++ truncMarker
        ∧ (limitedRaw mt r.raw_content).length = mt * 4 + truncMarker.length
        ∧ truncMarker <:+ limitedRaw mt r.raw_content)
    ∧ (r.raw_content.rawOrEmpty.length ≤ mt * 4 →
        limitedRaw mt r.raw_content = r.raw_content.rawOrEmpty) := by
  refine ⟨?_, ?_, ?_⟩
  · refine ⟨"Source: ".toList ++ r.title.fmtGet "No Title".toList ++ "\n===\n".toList
      ++ "URL: ".toList ++ r.url.fmtGet0 ++ "\n===\n".toList
      ++ "Most relevant content from source: ".toList ++ r.content.fmtGet [] ++ "\n===\n".toList
      ++ "Full source content limited to ".toList ++ (toString mt).toList
      ++ " tokens: ".toList, ?_⟩
    simp [formatStanza, List.append_assoc]
  · intro h
    have heq : limitedRaw mt r.raw_content
        = r.raw_content.rawOrEmpty.take (mt * 4) ++ truncMarker := by
      simp [limitedRaw, h]
    refine ⟨heq, ?_, ?_⟩
    · rw [heq]
      simp [List.length_append, List.length_take]
      omega
    · rw [heq]
      exact List.suffix_append _ _
  · intro h
    simp [limitedRaw, Nat.not_lt.mpr h]

/-- Witness for C5 at `max_tokens_per_source = 10` and a 50-character
raw content. -/
theorem C5_truncation_witness :
    limitedRaw 10 (PyField.str (List.replicate 50 'x'))
        = (PyField.str (List.replicate 50 'x')).rawOrEmpty.take (10 * 4) ++ truncMarker
    ∧ (limitedRaw 10 (PyField.str (List.replicate 50 'x'))).length
        = 10 * 4 + truncMarker.length := by
  have h := (C5_truncation 10
    { title := .absent, url := .absent, content := .absent,
      raw_content := .str (List.replicate 50 'x') }).2.1 (by decide)
  exact ⟨h.1, h.2.1⟩

/-! ### Order preservation of the deduplication -/

/-- The first occurrences of a list of keys, in order, relative to an
already-seen prefix. -/
def firstOccurAux (seen : List PyStr) : List PyStr → List PyStr
  | [] => []
  | u :: rest =>
    if u ∈ seen then firstOccurAux seen rest
    else u :: firstOccurAux (seen ++ [u]) rest

/-- The first occurrences of a list of keys, in order. -/
def firstOccur (l : List PyStr) : List PyStr := firstOccurAux [] l

/-- The keys of the `unique_sources` dict are the first occurrences, in
order, of the truthy urls of the input records. -/
theorem dedupEntries_keys (rs : List SearchRecord) :
    ∀ acc : List (PyStr × SearchRecord),
    (dedupEntries acc rs).map Prod.fst
      = acc.map Prod.fst
        ++ firstOccurAux (acc.map Prod.fst) (rs.filterMap fun r => r.url.truthyStr?) := by
  induction rs with
  | nil => intro acc; simp [dedupEntries, firstOccurAux]
  | cons r rest ih =>
    intro acc
    cases hu : r.url.truthyStr? with
    | none => simp [dedupEntries, hu, List.filterMap_cons, ih]
    | some u =>
      by_cases hc : u ∈ acc.map Prod.fst
      · simp [dedupEntries, hu, hc, List.filterMap_cons, firstOccurAux, ih]
      · have hstep := ih (acc ++ [(u, r)])
        simp only [List.map_append, List.map_cons, List.map_nil] at hstep
        simp [dedupEntries, hu, hc, List.filterMap_cons, firstOccurAux, hstep,
          List.append_assoc]

/-- Four concrete records whose urls occur in the order `[a, b, a, c]`. -/
def recUrlA : SearchRecord :=
  { title := .str "tA".toList, url := .str "a".toList,
    content := .str "cA".toList, raw_content := .absent }

/-- Second concrete record, url `b`. -/
def recUrlB : SearchRecord :=
  { title := .str "tB".toList, url := .str "b".toList,
    content := .str "cB".toList, raw_content := .absent }

/-- Third concrete record, url `a` again but different title/content. -/
def recUrlA2 : SearchRecord :=
  { title := .str "tA2".toList, url := .str "a".toList,
    content := .str "cA2".toList, raw_content := .absent }

/-- Fourth concrete record, url `c`. -/
def recUrlC : SearchRecord :=
  { title := .str "tC".toList, url := .str "c".toList,
    content := .str "cC".toList, raw_content := .absent }

set_option maxRecDepth 8192 in
/-- Claim C6: deduplication is order-preserving — the deduplicated
records (hence the stanzas of the output, which are rendered from them
in order) follow the first-occurrence order of the truthy urls of the
flattened input; in particular records with urls `[a, b, a, c]` come
out in url order `[a, b, c]`. -/
theorem C6_dedup_order_preserving :
    (∀ rs : List SearchRecord,
      (dedupEntries [] rs).map Prod.fst
        = firstOccur (rs.filterMap fun r => r.url.truthyStr?))
    ∧ dedupRecords [recUrlA, recUrlB, recUrlA2, recUrlC] = [recUrlA, recUrlB, recUrlC]
    ∧ deduplicate_and_format_sources
        (.dict (some ([recUrlA, recUrlB, recUrlA2, recUrlC].map .record))) 3 false
      = .ok (renderSources 3 false [recUrlA, recUrlB, recUrlC]) := by
  refine ⟨?_, by decide, by decide⟩
  intro rs
  simpa using dedupEntries_keys rs []

/-! ### First-seen deduplication -/

/-- Unfolding equation of `dedupEntries`: a record without truthy url is
skipped. -/
theorem dedupEntries_cons_none (acc : List (PyStr × SearchRecord))
    (r : SearchRecord) (rest : List SearchRecord) (h : r.url.truthyStr? = none) :
    dedupEntries acc (r :: rest) = dedupEntries acc rest := by
  simp [dedupEntries, h]

/-- Unfolding equation of `dedupEntries`: a record whose url is already
a key is skipped. -/
theorem dedupEntries_cons_mem (acc : List (PyStr × SearchRecord))
    (r : SearchRecord) (rest : List SearchRecord) (u : PyStr)
    (h : r.url.truthyStr? = some u) (hc : u ∈ acc.map Prod.fst) :
    dedupEntries acc (r :: rest) = dedupEntries acc rest := by
  simp [dedupEntries, h, hc]

/-- Unfolding equation of `dedupEntries`: a record with a fresh truthy
url is appended. -/
theorem dedupEntries_cons_new (acc : List (PyStr × SearchRecord))
    (r : SearchRecord) (rest : List SearchRecord) (u : PyStr)
    (h : r.url.truthyStr? = some u) (hc : u ∉ acc.map Prod.fst) :
    dedupEntries acc (r :: rest) = dedupEntries (acc ++ [(u, r)]) rest := by
  simp [dedupEntries, h, hc]

/-- If `u` is not a key of `acc`, no entry of `acc` passes the key
filter. -/
theorem filter_key_nil (acc : List (PyStr × SearchRecord)) (u : PyStr)
    (h : u ∉ acc.map Prod.fst) :
    acc.filter (fun p => p.1 == u) = [] := by
  rw [List.filter_eq_nil_iff]
  intro p hp
  simp only [beq_iff_eq, Bool.not_eq_true]
  intro he
  exact absurd (List.mem_map.mpr ⟨p, hp, he⟩) h

/-- Once `u` is a key of the accumulator, later records never change
the entries filtered at `u`. -/
theorem dedupEntries_filter_stable (rs : List SearchRecord) :
    ∀ (acc : List (PyStr × SearchRecord)) (u : PyStr), u ∈ acc.map Prod.fst →
    (dedupEntries acc rs).filter (fun p => p.1 == u)
      = acc.filter (fun p => p.1 == u) := by
  induction rs with
  | nil => intro acc u _; simp [dedupEntries]
  | cons r rest ih =>
    intro acc u hu
    cases hv : r.url.truthyStr? with
    | none => rw [dedupEntries_cons_none acc r rest hv]; exact ih acc u hu
    | some v =>
      by_cases hc : v ∈ acc.map Prod.fst
      · rw [dedupEntries_cons_mem acc r rest v hv hc]; exact ih acc u hu
      · have hvu : v ≠ u := fun he => hc (he ▸ hu)
        rw [dedupEntries_cons_new acc r rest v hv hc,
          ih (acc ++ [(v, r)]) u (by simp [hu]),
          List.filter_append]
        simp [hvu]

/-- If `u` is not yet a key, the entries filtered at `u` after the whole
loop are exactly the first input record with truthy url `u`. -/
theorem dedupEntries_filter_first (rs : List SearchRecord) :
    ∀ (acc : List (PyStr × SearchRecord)) (u : PyStr) (r₀ : SearchRecord),
    u ∉ acc.map Prod.fst →
    rs.find? (fun r => r.url.truthyStr? == some u) = some r₀ →
    (dedupEntries acc rs).filter (fun p => p.1 == u) = [(u, r₀)] := by
  induction rs with
  | nil => intro acc u r₀ _ h; simp [List.find?] at h
  | cons r rest ih =>
    intro acc u r₀ hacc hfind
    by_cases hp : (r.url.truthyStr? == some u) = true
    · have hru : r.url.truthyStr? = some u := by simpa [beq_iff_eq] using hp
      have hr0 : r = r₀ := by
        have h2 := hfind
        rw [List.find?_cons_of_pos rest hp] at h2
        exact Option.some.inj h2
      subst hr0
      rw [dedupEntries_cons_new acc r rest u hru hacc,
        dedupEntries_filter_stable rest (acc ++ [(u, r)]) u (by simp),
        List.filter_append, filter_key_nil acc u hacc]
      simp
    · have hfind' : rest.find? (fun r => r.url.truthyStr? == some u) = some r₀ := by
        have h2 := hfind
        rw [List.find?_cons_of_neg rest hp] at h2
        exact h2
      cases hv : r.url.truthyStr? with
      | none =>
        rw [dedupEntries_cons_none acc r rest hv]
        exact ih acc u r₀ hacc hfind'
      | some v =>
        have hvu : v ≠ u := by
          intro he
          subst he
          exact hp (by simp [hv])
        by_cases hc : v ∈ acc.map Prod.fst
        · rw [dedupEntries_cons_mem acc r rest v hv hc]
          exact ih acc u r₀ hacc hfind'
        · rw [dedupEntries_cons_new acc r rest v hv hc]
          refine ih (acc ++ [(v, r)]) u r₀ ?_ hfind'
          simp only [List.map_append, List.map_cons, List.map_nil, List.mem_append,
            List.mem_singleton, not_or]
          exact ⟨hacc, fun he => hvu he.symm⟩

/-- Every entry of the `unique_sources` dict is keyed by the truthy url
of its record. -/
theorem dedupEntries_wellKeyed (rs : List SearchRecord) :
    ∀ acc : List (PyStr × SearchRecord),
    (∀ p ∈ acc, p.2.url.truthyStr? = some p.1) →
    ∀ p ∈ dedupEntries acc rs, p.2.url.truthyStr? = some p.1 := by
  induction rs with
  | nil => intro acc h; simpa [dedupEntries] using h
  | cons r rest ih =>
    intro acc h
    cases hv : r.url.truthyStr? with
    | none => rw [dedupEntries_cons_none acc r rest hv]; exact ih acc h
    | some v =>
      by_cases hc : v ∈ acc.map Prod.fst
      · rw [dedupEntries_cons_mem acc r rest v hv hc]; exact ih acc h
      · rw [dedupEntries_cons_new acc r rest v hv hc]
        refine ih (acc ++ [(v, r)]) ?_
        intro p hp
        rcases List.mem_append.mp hp with h1 | h2
        · exact h p h1
        · have hpvr : p = (v, r) := by simpa using h2
          subst hpvr
          simpa using hv

/-- On a well-keyed entry list, filtering the values by url equals
taking the values of the entries filtered by key. -/
theorem filter_map_snd_key (u : PyStr) :
    ∀ l : List (PyStr × SearchRecord),
    (∀ p ∈ l, p.2.url.truthyStr? = some p.1) →
    (l.map Prod.snd).filter (fun r => r.url.truthyStr? == some u)
      = (l.filter (fun p => p.1 == u)).map Prod.snd := by
  intro l
  induction l with
  | nil => intro _; simp
  | cons p rest ih =>
    intro h
    have hp := h p (List.mem_cons_self p rest)
    have hrest := ih fun q hq => h q (List.mem_cons_of_mem p hq)
    by_cases hk : p.1 = u
    · subst hk
      simp [List.filter_cons, hp, hrest]
    · have h1 : (p.2.url.truthyStr? == some u) = false := by
        simp [hp, hk]
      have h2 : (p.1 == u) = false := by simp [hk]
      simp [List.filter_cons, h1, h2, hrest]

/-- On a list of record dicts, the dedup loop never raises and agrees
with `dedupEntries`. -/
theorem dedupLoop_records (rs : List SearchRecord) :
    ∀ acc, dedupLoop acc (rs.map .record) = .ok (dedupEntries acc rs) := by
  induction rs with
  | nil => intro acc; rfl
  | cons r rest ih =>
    intro acc
    cases hv : r.url.truthyStr? with
    | none => simp [dedupLoop, dedupEntries, hv, ih]
    | some v =>
      by_cases hc : v ∈ acc.map Prod.fst
      · simp [dedupLoop, dedupEntries, hv, hc, ih]
      · simp [dedupLoop, dedupEntries, hv, hc, ih]

/-- On a dict input whose `results` are record dicts,
`deduplicate_and_format_sources` succeeds and renders the deduplicated
records. -/
theorem dedup_format_records (rs : List SearchRecord) (mt : Nat) (f : Bool) :
    deduplicate_and_format_sources (.dict (some (rs.map .record))) mt f
      = .ok (renderSources mt f (dedupRecords rs)) := by
  simp [deduplicate_and_format_sources, formatFromSourcesList, sourcesListOf,
    dedupLoop_records rs [], dedupRecords]

/-- Claim C1: when two records of the input share the same truthy url
`u`, the deduplicated output contains exactly one record with url `u`,
namely the first-seen one (so its stanza carries the first-seen title
and content), and the formatted output renders exactly the
deduplicated records. -/
theorem C1_dedup_first_seen (rs : List SearchRecord) (mt : Nat) (fetch : Bool)
    (u : PyStr) (i j : Nat) (r₀ : SearchRecord)
    (hi : i < rs.length) (hj : j < rs.length) (hij : i < j)
    (hiu : rs[i].url.truthyStr? = some u)
    (hju : rs[j].url.truthyStr? = some u)
    (hfind : rs.find? (fun r => r.url.truthyStr? == some u) = some r₀) :
    (dedupRecords rs).filter (fun r => r.url.truthyStr? == some u) = [r₀]
    ∧ formatStanza mt fetch r₀ ∈ (dedupRecords rs).map (formatStanza mt fetch)
    ∧ deduplicate_and_format_sources (.dict (some (rs.map .record))) mt fetch
        = .ok (renderSources mt fetch (dedupRecords rs)) := by
  have hwk := dedupEntries_wellKeyed rs [] (by simp)
  have hkeys := dedupEntries_filter_first rs [] u r₀ (by simp) hfind
  have hfilter : (dedupRecords rs).filter (fun r => r.url.truthyStr? == some u)
      = [r₀] := by
    rw [dedupRecords, filter_map_snd_key u _ hwk, hkeys]
    rfl
  refine ⟨hfilter, ?_, dedup_format_records rs mt fetch⟩
  have hmem : r₀ ∈ dedupRecords rs := by
    have hf : r₀ ∈ (dedupRecords rs).filter (fun r => r.url.truthyStr? == some u) := by
      rw [hfilter]
      exact List.mem_singleton.mpr rfl
    exact List.mem_of_mem_filter hf
  exact List.mem_map_of_mem _ hmem

/-- First-seen record for the C1 witness, url `dup`. -/
def c1recFirst : SearchRecord :=
  { title := .str "first".toList, url := .str "dup".toList,
    content := .str "c1".toList, raw_content := .absent }

/-- Second record for the C1 witness, same url `dup`. -/
def c1recSecond : SearchRecord :=
  { title := .str "second".toList, url := .str "dup".toList,
    content := .str "c2".toList, raw_content := .absent }

/-- Witness for C1 at a concrete two-record input sharing url `dup`. -/
theorem C1_dedup_first_seen_witness :
    (dedupRecords [c1recFirst, c1recSecond]).filter
        (fun r => r.url.truthyStr? == some "dup".toList) = [c1recFirst]
    ∧ formatStanza 3 false c1recFirst
        ∈ (dedupRecords [c1recFirst, c1recSecond]).map (formatStanza 3 false)
    ∧ deduplicate_and_format_sources
        (.dict (some ([c1recFirst, c1recSecond].map .record))) 3 false
      = .ok (renderSources 3 false (dedupRecords [c1recFirst, c1recSecond])) :=
  C1_dedup_first_seen [c1recFirst, c1recSecond] 3 false "dup".toList 0 1 c1recFirst
    (by decide) (by decide) (by decide) (by decide) (by decide) (by decide)

/-! ### Keyless records, the type contract, and the providers -/

/-- Unfolding equation of `dedupLoop`: a bare string raises. -/
theorem dedupLoop_cons_str (acc : List (PyStr × SearchRecord)) (s : PyStr)
    (rest : List SourceItem) :
    dedupLoop acc (.strItem s :: rest) = .error .attributeError := rfl

/-- Unfolding equation of `dedupLoop`: a record without truthy url is
skipped. -/
theorem dedupLoop_cons_none (acc : List (PyStr × SearchRecord))
    (r : SearchRecord) (rest : List SourceItem) (h : r.url.truthyStr? = none) :
    dedupLoop acc (.record r :: rest) = dedupLoop acc rest := by
  simp [dedupLoop, h]

/-- Unfolding equation of `dedupLoop`: a record whose url is already a
key is skipped. -/
theorem dedupLoop_cons_mem (acc : List (PyStr × SearchRecord))
    (r : SearchRecord) (rest : List SourceItem) (u : PyStr)
    (h : r.url.truthyStr? = some u) (hc : u ∈ acc.map Prod.fst) :
    dedupLoop acc (.record r :: rest) = dedupLoop acc rest := by
  simp [dedupLoop, h, hc]

/-- Unfolding equation of `dedupLoop`: a record with a fresh truthy url
is appended. -/
theorem dedupLoop_cons_new (acc : List (PyStr × SearchRecord))
    (r : SearchRecord) (rest : List SourceItem) (u : PyStr)
    (h : r.url.truthyStr? = some u) (hc : u ∉ acc.map Prod.fst) :
    dedupLoop acc (.record r :: rest) = dedupLoop (acc ++ [(u, r)]) rest := by
  simp [dedupLoop, h, hc]

/-- The dedup loop only raises `AttributeError`, never `ValueError`. -/
theorem dedupLoop_no_valueError (sl : List SourceItem) :
    ∀ (acc : List (PyStr × SearchRecord)) (msg : PyStr),
    dedupLoop acc sl ≠ .error (.valueError msg) := by
  induction sl with
  | nil => intro acc msg h; simp [dedupLoop] at h
  | cons it rest ih =>
    intro acc msg h
    cases it with
    | strItem s => rw [dedupLoop_cons_str] at h; simp at h
    | record r =>
      cases hv : r.url.truthyStr? with
      | none =>
        rw [dedupLoop_cons_none acc r rest hv] at h
        exact ih acc msg h
      | some v =>
        by_cases hc : v ∈ acc.map Prod.fst
        · rw [dedupLoop_cons_mem acc r rest v hv hc] at h
          exact ih acc msg h
        · rw [dedupLoop_cons_new acc r rest v hv hc] at h
          exact ih (acc ++ [(v, r)]) msg h

/-- The dedup-and-render stage never produces a `ValueError`. -/
theorem formatFromSourcesList_no_valueError (sl : List SourceItem)
    (mt : Nat) (f : Bool) (msg : PyStr) :
    formatFromSourcesList sl mt f ≠ .error (.valueError msg) := by
  unfold formatFromSourcesList
  cases hdl : dedupLoop [] sl with
  | error e =>
    intro h
    have he : e = .valueError msg := Except.error.inj h
    exact dedupLoop_no_valueError sl [] msg (he ▸ hdl)
  | ok us => simp

/-- A record whose `url` key is missing, for the C2 counterexample. -/
def c2recNoUrl : SearchRecord :=
  { title := .str "t1".toList, url := .absent,
    content := .str "c1".toList, raw_content := .absent }

/-- A record whose `url` key holds `None`, for the C2 counterexample. -/
def c2recNoneUrl : SearchRecord :=
  { title := .str "t2".toList, url := .pynone,
    content := .str "c2".toList, raw_content := .absent }

/-- A record whose `url` is the empty string, for the C2 counterexample. -/
def c2recEmptyUrl : SearchRecord :=
  { title := .str "t3".toList, url := .str [],
    content := .str "c3".toList, raw_content := .absent }

set_option maxRecDepth 8192 in
/-- Counterexample to claim C2: on an input consisting only of keyless
records (url missing, `None`, or empty), the claim says each appears
independently as its own stanza, but the code drops all of them — the
deduplicated list is empty and the formatted output is the bare header
with no stanza at all. -/
theorem C2_counterexample :
    dedupRecords [c2recNoUrl, c2recNoneUrl, c2recEmptyUrl] = []
    ∧ deduplicate_and_format_sources
        (.dict (some ([c2recNoUrl, c2recNoneUrl, c2recEmptyUrl].map .record))) 5 false
      = .ok "Sources:".toList :=
  ⟨by decide, by decide⟩

/-- Claim C2 amended: records without a truthy url are never merged with
each other — but neither do they survive: every record in the
deduplicated output has a truthy url, so keyless records are dropped
entirely. -/
theorem C2_keyless_records_dropped (rs : List SearchRecord) (r : SearchRecord)
    (h : r ∈ dedupRecords rs) : r.url.truthyStr?.isSome = true := by
  have hwk := dedupEntries_wellKeyed rs [] (by simp)
  rw [dedupRecords] at h
  rcases List.mem_map.mp h with ⟨p, hp, hpr⟩
  have hk := hwk p hp
  rw [← hpr, hk]
  rfl

/-- A record with truthy url for the C2 witness. -/
def c2recWithUrl : SearchRecord :=
  { title := .str "t".toList, url := .str "u".toList,
    content := .str "c".toList, raw_content := .absent }

/-- Witness for the amended C2 at a concrete input. -/
theorem C2_keyless_records_dropped_witness :
    c2recWithUrl ∈ dedupRecords [c2recWithUrl]
    ∧ c2recWithUrl.url.truthyStr?.isSome = true :=
  ⟨by decide, C2_keyless_records_dropped [c2recWithUrl] c2recWithUrl (by decide)⟩

set_option maxRecDepth 8192 in
/-- Counterexample to claim C3: a plain list containing one raw dict
that lacks a `results` key (keys `url`, `title`) does not raise the
designated `ValueError` — iterating the dict splices its keys in as
bare strings and the dedup loop raises `AttributeError`; moreover a
dict without a `results` key is also not the designated error case: it
succeeds with an empty `results` default. -/
theorem C3_counterexample :
    deduplicate_and_format_sources
        (.listResp [.dictWithout ["url".toList, "title".toList]]) 5 false
      = .error .attributeError
    ∧ deduplicate_and_format_sources (.dict none) 5 false
      = .ok "Sources:".toList :=
  ⟨by decide, by decide⟩

/-- Claim C3 amended: `ValueError` is raised exactly when
`search_response` is neither a dict nor a list (any dict — even one
without a `results` key — and any list avoid it; a list of raw dicts
lacking `results` instead fails later with `AttributeError` or
succeeds), and a dict with a `results` list of record dicts succeeds
with the formatted string. -/
theorem C3_valueError_iff (resp : SearchResponse) (mt : Nat) (f : Bool) :
    ((∃ msg, deduplicate_and_format_sources resp mt f = .error (.valueError msg))
      ↔ resp = .other)
    ∧ (∀ rs : List SearchRecord,
        deduplicate_and_format_sources (.dict (some (rs.map .record))) mt f
          = .ok (renderSources mt f (dedupRecords rs))) := by
  refine ⟨⟨?_, ?_⟩, fun rs => dedup_format_records rs mt f⟩
  · rintro ⟨msg, hmsg⟩
    cases resp with
    | other => rfl
    | dict o =>
      exact absurd hmsg (formatFromSourcesList_no_valueError (o.getD []) mt f msg)
    | listResp items =>
      exact absurd hmsg (formatFromSourcesList_no_valueError (extendAll items) mt f msg)
  · intro h
    subst h
    exact ⟨"Input must be either a dict with \x27results\x27 or a list of search results".toList,
      rfl⟩

/-- Counterexample to claim C4: `searxng_search` has no exception
handler — when its search collaborator raises (here a connection
error), the exception propagates to the caller instead of degrading to
an empty result set. -/
theorem C4_counterexample :
    searxng_search none (fun _ => .error "ConnectionError".toList)
        (fun _ => .error []) false
      = .error "ConnectionError".toList := rfl

/-- Claim C4 amended: `duckduckgo_search` never raises — for every
collaborator outcome it returns a result, and a collaborator failure
yields `{"results": []}` plus the diagnostic line — but
`searxng_search` forwards any collaborator exception unchanged. -/
theorem C4_provider_error_behavior :
    (∀ (ddgs : Except PyStr (List DDGHit)) (webGet : PyField → Except PyStr PyStr)
        (f : Bool), ∃ v, duckduckgo_search ddgs webGet f = .ok v)
    ∧ (∀ (e : PyStr) (webGet : PyField → Except PyStr PyStr) (f : Bool),
        duckduckgo_search (.error e) webGet f
          = .ok (.dict (some []), ["Error in DuckDuckGo search: ".toList ++ e]))
    ∧ (∀ (env : Option PyStr) (e : PyStr) (webGet : PyField → Except PyStr PyStr)
        (f : Bool),
        searxng_search env (fun _ => .error e) webGet f = .error e) := by
  refine ⟨?_, fun e webGet f => rfl, fun env e webGet f => rfl⟩
  intro ddgs webGet f
  cases ddgs with
  | error e => exact ⟨_, rfl⟩
  | ok hits => exact ⟨_, rfl⟩

set_option maxRecDepth 8192 in
/-- Counterexample to claim C8: the file path `save_report_as_html`
opens is the bare derived filename — it contains no directory separator
at all, so the file is not written under a fixed reports directory (and
no directory is created). -/
theorem C8_counterexample :
    (save_report_as_html "Solar Power_Energy_research_report".toList
        "content".toList none).path
      = "solar_power_energy_research_report_report.html".toList
    ∧ '/' ∉ (save_report_as_html "Solar Power_Energy_research_report".toList
        "content".toList none).path :=
  ⟨by decide, by decide⟩

set_option maxRecDepth 8192 in
/-- Claim C8 amended: `save_report_as_html` writes the content verbatim
to a file in the current working directory (no reports directory is
involved or created) whose name is the title with spaces replaced by
underscores, lowercased, plus the suffix `_report.html`; the title
`Solar Power_Energy_research_report` yields
`solar_power_energy_research_report_report.html`; it returns a success
status naming the file or a failure status carrying the error message,
rather than raising. -/
theorem C8_save_report (title content : PyStr) (outcome : Option PyStr) :
    (save_report_as_html title content outcome).path = reportFilename title
    ∧ (save_report_as_html title content outcome).written = content
    ∧ (save_report_as_html title content none).status
        = "Successfully saved report to \x27".toList ++ reportFilename title
          ++ "\x27".toList
    ∧ (∀ e, (save_report_as_html title content (some e)).status
        = "Failed to save report. Error: ".toList ++ e)
    ∧ reportFilename "Solar Power_Energy_research_report".toList
        = "solar_power_energy_research_report_report.html".toList := by
  refine ⟨?_, ?_, rfl, fun e => rfl, by decide⟩
  · cases outcome <;> rfl
  · cases outcome <;> rfl

/-! ### Independence from `raw_content` when `fetch_full_page` is off -/

/-- Forget the `raw_content` field of a record. -/
def scrubRecord (r : SearchRecord) : SearchRecord :=
  { r with raw_content := .absent }

/-- Forget the `raw_content` fields inside a source item. -/
def scrubItem : SourceItem → SourceItem
  | .record r => .record (scrubRecord r)
  | .strItem s => .strItem s

/-- Forget the `raw_content` fields inside a response element. -/
def scrubResponseItem : ResponseItem → ResponseItem
  | .dictWith rs => .dictWith (rs.map scrubItem)
  | .dictWithout keys => .dictWithout keys
  | .listItems its => .listItems (its.map scrubItem)

/-- Forget all `raw_content` fields of an input: two inputs that are
identical except for `raw_content` values have the same scrub. -/
def scrubResponse : SearchResponse → SearchResponse
  | .dict o => .dict (o.map (List.map scrubItem))
  | .listResp items => .listResp (items.map scrubResponseItem)
  | .other => .other

/-- Forget the `raw_content` field inside a dict entry. -/
def scrubEntry (p : PyStr × SearchRecord) : PyStr × SearchRecord :=
  (p.1, scrubRecord p.2)

/-- `extendAll` commutes with scrubbing. -/
theorem extendAll_scrub (items : List ResponseItem) :
    extendAll (items.map scrubResponseItem) = (extendAll items).map scrubItem := by
  induction items with
  | nil => rfl
  | cons it rest ih =>
    cases it <;>
      simp [extendAll, scrubResponseItem, scrubItem, ih, List.map_append,
        Function.comp]

/-- `sourcesListOf` commutes with scrubbing. -/
theorem sourcesListOf_scrub (resp : SearchResponse) :
    sourcesListOf (scrubResponse resp)
      = (sourcesListOf resp).map (List.map scrubItem) := by
  cases resp with
  | dict o => cases o <;> simp [sourcesListOf, scrubResponse, Except.map]
  | listResp items => simp [sourcesListOf, scrubResponse, extendAll_scrub, Except.map]
  | other => simp [sourcesListOf, scrubResponse, Except.map]

/-- The dedup loop commutes with scrubbing: scrubbing never changes the
url, so the same records are kept under the same keys. -/
theorem dedupLoop_scrub (sl : List SourceItem) :
    ∀ acc, dedupLoop (acc.map scrubEntry) (sl.map scrubItem)
      = (dedupLoop acc sl).map (List.map scrubEntry) := by
  induction sl with
  | nil => intro acc; rfl
  | cons it rest ih =>
    intro acc
    cases it with
    | strItem s => rfl
    | record r =>
      have hurl : (scrubRecord r).url.truthyStr? = r.url.truthyStr? := rfl
      have hkeys : (acc.map scrubEntry).map Prod.fst = acc.map Prod.fst := by
        simp [scrubEntry, List.map_map, Function.comp]
      cases hv : r.url.truthyStr? with
      | none =>
        simp only [List.map_cons, scrubItem]
        rw [dedupLoop_cons_none _ _ _ (hurl.trans hv), dedupLoop_cons_none _ _ _ hv]
        exact ih acc
      | some v =>
        by_cases hc : v ∈ acc.map Prod.fst
        · simp only [List.map_cons, scrubItem]
          rw [dedupLoop_cons_mem _ _ _ v (hurl.trans hv) (hkeys ▸ hc),
            dedupLoop_cons_mem _ _ _ v hv hc]
          exact ih acc
        · simp only [List.map_cons, scrubItem]
          rw [dedupLoop_cons_new _ _ _ v (hurl.trans hv) (hkeys ▸ hc),
            dedupLoop_cons_new _ _ _ v hv hc]
          have : acc.map scrubEntry ++ [(v, scrubRecord r)]
              = (acc ++ [(v, r)]).map scrubEntry := by
            simp [scrubEntry, List.map_append]
          rw [this]
          exact ih (acc ++ [(v, r)])

/-- With `fetch_full_page` off, a stanza ignores `raw_content`. -/
theorem formatStanza_scrub (mt : Nat) (r : SearchRecord) :
    formatStanza mt false (scrubRecord r) = formatStanza mt false r := rfl

/-- With `fetch_full_page` off, rendering ignores `raw_content`. -/
theorem renderSources_scrub (mt : Nat) (rs : List SearchRecord) :
    renderSources mt false (rs.map scrubRecord) = renderSources mt false rs := by
  have h : formatStanza mt false ∘ scrubRecord = formatStanza mt false := by
    funext r
    rfl
  simp [renderSources, List.map_map, h]

/-- `deduplicate_and_format_sources` with `fetch_full_page` off is
invariant under scrubbing all `raw_content` fields. -/
theorem dedup_format_scrub (resp : SearchResponse) (mt : Nat) :
    deduplicate_and_format_sources (scrubResponse resp) mt false
      = deduplicate_and_format_sources resp mt false := by
  unfold deduplicate_and_format_sources
  rw [sourcesListOf_scrub]
  cases hs : sourcesListOf resp with
  | error e => rfl
  | ok sl =>
    simp only [Except.map]
    unfold formatFromSourcesList
    have hdl := dedupLoop_scrub sl []
    simp only [List.map_nil] at hdl
    rw [hdl]
    cases dedupLoop [] sl with
    | error e => rfl
    | ok us =>
      simp only [Except.map]
      have hsnd : (us.map scrubEntry).map Prod.snd
          = (us.map Prod.snd).map scrubRecord := by
        simp [scrubEntry, List.map_map, Function.comp]
      rw [hsnd, renderSources_scrub]

/-- Claim C10: with `fetch_full_page = False`, the output of
`deduplicate_and_format_sources` does not depend on the `raw_content`
fields — two inputs that are identical except for `raw_content` values
(their scrubs agree) produce identical results. -/
theorem C10_raw_content_independent (resp resp' : SearchResponse) (mt : Nat)
    (h : scrubResponse resp = scrubResponse resp') :
    deduplicate_and_format_sources resp mt false
      = deduplicate_and_format_sources resp' mt false := by
  rw [← dedup_format_scrub resp mt, ← dedup_format_scrub resp' mt, h]

/-- C10 witness record, `raw_content` = `AAA`. -/
def c10recA : SearchRecord :=
  { title := .str "t".toList, url := .str "u".toList,
    content := .str "c".toList, raw_content := .str "AAA".toList }

/-- C10 witness record, identical except `raw_content` = `BBB`. -/
def c10recB : SearchRecord :=
  { title := .str "t".toList, url := .str "u".toList,
    content := .str "c".toList, raw_content := .str "BBB".toList }

/-- C10 witness input built from `c10recA`. -/
def c10respA : SearchResponse := .dict (some [.record c10recA])

/-- C10 witness input built from `c10recB`. -/
def c10respB : SearchResponse := .dict (some [.record c10recB])

/-- Witness for C10 at two concrete inputs differing only in
`raw_content`. -/
theorem C10_raw_content_independent_witness :
    deduplicate_and_format_sources c10respA 5 false
      = deduplicate_and_format_sources c10respB 5 false :=
  C10_raw_content_independent c10respA c10respB 5 (by decide)
